import Mathlib

/-!
Shallow embedding of the ev3dev DC motor handle (dc_motor.go) and the
attribute-accessor boundary it is written against.  The backing
pseudo-filesystem is modelled as an explicit `World` value threaded through
every operation; machine integers (`int`, `time.Duration`) are modelled as
`Int` (durations count nanoseconds, as Go's `time.Duration` does).
-/

namespace Ev3dev

/-! ### Decimal text conversions

Models of Go's `fmt.Sprint` on an `int` and `strconv.Atoi` (standard-library
collaborators of the source file): base-10 printing and parsing of integers.
-/

/-- Parse one ASCII decimal digit, as `strconv` does. -/
def charDigit? (c : Char) : Option Nat :=
  if '0' ≤ c ∧ c ≤ '9' then some (c.toNat - 48) else none

/-- Big-endian decimal digits of `n`; `fuel` bounds the recursion depth. -/
def natDigitsAux : Nat → Nat → List Char
  | _, 0 => []
  | n, fuel + 1 =>
    if n < 10 then [Nat.digitChar n]
    else natDigitsAux (n / 10) fuel ++ [Nat.digitChar (n % 10)]

/-- Big-endian decimal digits of `n` (at least one digit, so `0 ↦ "0"`). -/
def natDigits (n : Nat) : List Char :=
  natDigitsAux n (n + 1)

/-- Model of `fmt.Sprint` applied to a Go `int`: base-10, `-` sign. -/
def intRepr : Int → String
  | .ofNat n => ⟨natDigits n⟩
  | .negSucc n => ⟨'-' :: natDigits (n + 1)⟩

/-- Accumulator pass of decimal parsing. -/
def parseNatAux : List Char → Nat → Option Nat
  | [], acc => some acc
  | c :: cs, acc =>
    match charDigit? c with
    | some d => parseNatAux cs (acc * 10 + d)
    | none => none

/-- Parse a non-empty all-digit string to a `Nat`. -/
def parseNat (cs : List Char) : Option Nat :=
  if cs = [] then none else parseNatAux cs 0

/-- Signed decimal parsing over the character list. -/
def parseIntChars : List Char → Option Int
  | [] => none
  | c :: cs =>
    if c = '-' then (parseNat cs).map (fun n => -(n : Int))
    else (parseNat (c :: cs)).map (fun n => (n : Int))

/-- Model of `strconv.Atoi`: optional leading `-`, then decimal digits. -/
def parseInt (s : String) : Option Int :=
  parseIntChars s.data

/-! ### Space splitting

Model of Go's `strings.Split(s, " ")`: split on every single space,
preserving empty segments. -/

/-- Splitter worker over the character list; `acc` holds the current segment
reversed. -/
def splitSpaceAux : List Char → List Char → List String
  | [], acc => [⟨acc.reverse⟩]
  | c :: rest, acc =>
    if c = ' ' then ⟨acc.reverse⟩ :: splitSpaceAux rest []
    else splitSpaceAux rest (c :: acc)

/-- Model of `strings.Split(s, " ")`. -/
def splitSpace (s : String) : List String :=
  splitSpaceAux s.data []

/-! ### Errors

The error values the DC motor code can produce, as structured data; the Go
code builds them with `fmt.Errorf`, which `errorText` mirrors. -/

inductive DevError where
  | ioError (msg : String)
  | notAvailable (comm dev : String) (avail : List String)
  | stopNotAvailable (action dev : String) (avail : List String)
  | invalidDutyCycle (sp : Int)
  | invalidPolarity (p : String)
  | invalidRampUp (sp : Int)
  | invalidRampDown (sp : Int)
  | unrecognizedState (tok raw : String)
  | parseFailure (raw : String)
  | notFound
  | driverMismatch (want got : String)
  deriving DecidableEq, Repr

/-- Go `%q` formatting of a string (escaping elided: none of the motor
attribute tokens contain characters needing escapes). -/
def goQuote (s : String) : String := "\"" ++ s ++ "\""

/-- Go `%q` formatting of a `[]string`. -/
def goQuoteList (l : List String) : String :=
  "[" ++ String.intercalate " " (l.map goQuote) ++ "]"

/-- The message text of each error, following the `fmt.Errorf` format strings
in dc_motor.go. -/
def errorText : DevError → String
  | .ioError msg => msg
  | .notAvailable comm dev avail =>
      "ev3dev: command " ++ goQuote comm ++ " not available for " ++ dev ++
        " (available:" ++ goQuoteList avail ++ ")"
  | .stopNotAvailable action dev avail =>
      "ev3dev: stop action " ++ goQuote action ++ " not available for " ++ dev ++
        " (available:" ++ goQuoteList avail ++ ")"
  | .invalidDutyCycle sp =>
      "ev3dev: invalid duty cycle setpoint: " ++ intRepr sp ++ " (valid -100 - 100)"
  | .invalidPolarity p =>
      "ev3dev: invalid polarity: " ++ goQuote p ++ " (valid \"normal\" or \"inversed\")"
  | .invalidRampUp sp =>
      "ev3dev: invalid ramp up setpoint: " ++ intRepr sp ++ " (must be positive)"
  | .invalidRampDown sp =>
      "ev3dev: invalid ramp down setpoint: " ++ intRepr sp ++ " (must be positive)"
  | .unrecognizedState tok raw =>
      "ev3dev: unrecognized motor state value: " ++ tok ++ " in [" ++ raw ++ "]"
  | .parseFailure raw =>
      "ev3dev: failed to parse: " ++ raw
  | .notFound => "ev3dev: device not found"
  | .driverMismatch want got =>
      "ev3dev: driver mismatch: want " ++ goQuote want ++ " got " ++ goQuote got

/-! ### Backing store -/

/-- The pseudo-filesystem as seen by one device kind: attribute text indexed
by device id and attribute name, plus the I/O-failure behaviour of each read
and write (`some msg` means the next access to that attribute fails). -/
structure World where
  attrs : Int → String → String
  readErr : Int → String → Option String
  writeErr : Int → String → Option String

/-- DCMotor represents a handle to a dc-motor: the bound device id and the
deferred (sticky) error slot. -/
structure DCMotor where
  id : Int
  err : Option DevError
  deriving DecidableEq, Repr

/-! Attribute name constants (the sysfs attribute file names). -/

def command : String := "command"
def commands : String := "commands"
def dutyCycleSetpoint : String := "duty_cycle_sp"
def polarity : String := "polarity"
def rampUpSetpoint : String := "ramp_up_sp"
def rampDownSetpoint : String := "ramp_down_sp"
def state : String := "state"
def stopAction : String := "stop_action"
def stopActions : String := "stop_actions"
def timeSetpoint : String := "time_sp"

/-- Modelled from the spec: `read_attribute(kind, id, name) -> (text, byte_count, error)`
(§6), the external attribute accessor used by `attributeOf` in the repository
but not present under src/.  Reads the raw text of one attribute, or fails. -/
def attributeOf (m : DCMotor) (attr : String) (w : World) : Except DevError String :=
  match w.readErr m.id attr with
  | some msg => .error (.ioError msg)
  | none => .ok (w.attrs m.id attr)

/-- Modelled from the spec: `write_attribute(kind, id, name, text) -> error`
(§6), the external attribute writer used by `setAttributeOf` in the repository
but not present under src/.  On success the store is updated; on failure it is
untouched. -/
def setAttributeOf (m : DCMotor) (attr value : String) (w : World) :
    Option DevError × World :=
  match w.writeErr m.id attr with
  | some msg => (some (.ioError msg), w)
  | none =>
    (none,
     { w with
        attrs := fun i a => if i = m.id ∧ a = attr then value else w.attrs i a })

/-- Modelled from the spec: the `string-list` typed conversion (§4.3), "raw
text split on single spaces; empty segments are preserved"; the repository's
`stringSliceFrom` is not under src/. -/
def stringSliceFrom (r : Except DevError String) : Except DevError (List String) :=
  r.map splitSpace

/-- Modelled from the spec: the `duration` typed conversion (§4.3), "raw text
is a count of milliseconds"; the repository's `durationFrom` is not under
src/.  Returns the duration in nanoseconds (`time.Duration` units); a parse
failure names the offending text. -/
def durationFrom (r : Except DevError String) : Except DevError Int :=
  match r with
  | .error e => .error e
  | .ok s =>
    match parseInt s with
    | some n => .ok (n * 1000000)
    | none => .error (.parseFailure s)

/-- Modelled from the spec: the fixed token→bit table of the motor state
bitmask (§3 Data Model and §8.6: `{running:1, ramping:2, stalled:4}`); the
repository's `motorStateTable` is not under src/. -/
def motorStateTable : String → Option Nat
  | "running" => some 1
  | "ramping" => some 2
  | "stalled" => some 4
  | _ => none

/-! ### DC motor operations (embedded from src/ev3dev/dc_motor.go) -/

/-- String satisfies the fmt.Stringer interface (for a non-nil handle):
`fmt.Sprint(motorPrefix, m.id)`. -/
def DCMotor.toDisplay (m : DCMotor) : String :=
  "motor" ++ intRepr m.id

/-- Err returns the error state of the DCMotor and clears it. -/
def DCMotor.Err (m : DCMotor) : Option DevError × DCMotor :=
  (m.err, { m with err := none })

/-- setID satisfies the idSetter interface: `*m = DCMotor{id: id}`. -/
def DCMotor.setID (_ : DCMotor) (i : Int) : DCMotor :=
  { id := i, err := none }

/-- Commands returns the available commands for the DCMotor. -/
def DCMotor.Commands (m : DCMotor) (w : World) : Except DevError (List String) :=
  stringSliceFrom (attributeOf m commands w)

/-- Command issues a command to the DCMotor. -/
def DCMotor.Command (m : DCMotor) (comm : String) (w : World) : DCMotor × World :=
  match m.err with
  | some _ => (m, w)
  | none =>
    match m.Commands w with
    | .error e => ({ m with err := some e }, w)
    | .ok avail =>
      if comm ∈ avail then
        let r := setAttributeOf m command comm w
        ({ m with err := r.1 }, r.2)
      else
        ({ m with err := some (.notAvailable comm m.toDisplay avail) }, w)

/-- SetDutyCycleSetpoint sets the duty cycle setpoint value for the DCMotor. -/
def DCMotor.SetDutyCycleSetpoint (m : DCMotor) (sp : Int) (w : World) :
    DCMotor × World :=
  match m.err with
  | some _ => (m, w)
  | none =>
    if sp < -100 ∨ sp > 100 then
      ({ m with err := some (.invalidDutyCycle sp) }, w)
    else
      let r := setAttributeOf m dutyCycleSetpoint (intRepr sp) w
      ({ m with err := r.1 }, r.2)

/-- Polarity is a two-valued enumeration carried as its literal text. -/
def Normal : String := "normal"

/-- The inverse polarity literal. -/
def Inversed : String := "inversed"

/-- SetPolarity sets the polarity of the DCMotor. -/
def DCMotor.SetPolarity (m : DCMotor) (p : String) (w : World) : DCMotor × World :=
  match m.err with
  | some _ => (m, w)
  | none =>
    if p ≠ Normal ∧ p ≠ Inversed then
      ({ m with err := some (.invalidPolarity p) }, w)
    else
      let r := setAttributeOf m polarity p w
      ({ m with err := r.1 }, r.2)

/-- SetRampUpSetpoint sets the ramp up setpoint value for the DCMotor.
`sp` is a `time.Duration`, i.e. a count of nanoseconds; the guard compares it
to the bare literal `10000` exactly as the source does. -/
def DCMotor.SetRampUpSetpoint (m : DCMotor) (sp : Int) (w : World) :
    DCMotor × World :=
  match m.err with
  | some _ => (m, w)
  | none =>
    if sp < 0 ∨ sp > 10000 then
      ({ m with err := some (.invalidRampUp sp) }, w)
    else
      let r := setAttributeOf m rampUpSetpoint (intRepr (Int.tdiv sp 1000000)) w
      ({ m with err := r.1 }, r.2)

/-- SetRampDownSetpoint sets the ramp down setpoint value for the DCMotor.
Same nanosecond-valued guard as `SetRampUpSetpoint`. -/
def DCMotor.SetRampDownSetpoint (m : DCMotor) (sp : Int) (w : World) :
    DCMotor × World :=
  match m.err with
  | some _ => (m, w)
  | none =>
    if sp < 0 ∨ sp > 10000 then
      ({ m with err := some (.invalidRampDown sp) }, w)
    else
      let r := setAttributeOf m rampDownSetpoint (intRepr (Int.tdiv sp 1000000)) w
      ({ m with err := r.1 }, r.2)

/-- The token loop of `State`: `stat |= motorStateTable[s]`, failing on the
first unrecognized token. -/
def parseStateAux : List String → String → Nat → Except DevError Nat
  | [], _, stat => .ok stat
  | s :: rest, data, stat =>
    match motorStateTable s with
    | none => .error (.unrecognizedState s data)
    | some bit => parseStateAux rest data (stat ||| bit)

/-- State returns the current state of the DCMotor; a pending deferred error
is returned (and drained) instead of reading. -/
def DCMotor.State (m : DCMotor) (w : World) : Except DevError Nat × DCMotor :=
  match m.err with
  | some e => (.error e, { m with err := none })
  | none =>
    match attributeOf m state w with
    | .error e => (.error e, m)
    | .ok data => (parseStateAux (splitSpace data) data 0, m)

/-- StopActions returns the available stop actions for the DCMotor. -/
def DCMotor.StopActions (m : DCMotor) (w : World) : Except DevError (List String) :=
  stringSliceFrom (attributeOf m stopActions w)

/-- SetStopAction sets the stop action to be used when a stop command is
issued to the DCMotor. -/
def DCMotor.SetStopAction (m : DCMotor) (action : String) (w : World) :
    DCMotor × World :=
  match m.err with
  | some _ => (m, w)
  | none =>
    match m.StopActions w with
    | .error e => ({ m with err := some e }, w)
    | .ok avail =>
      if action ∈ avail then
        let r := setAttributeOf m stopAction action w
        ({ m with err := r.1 }, r.2)
      else
        ({ m with err := some (.stopNotAvailable action m.toDisplay avail) }, w)

/-- TimeSetpoint returns the current time setpoint value for the DCMotor, in
nanoseconds. -/
def DCMotor.TimeSetpoint (m : DCMotor) (w : World) : Except DevError Int :=
  durationFrom (attributeOf m timeSetpoint w)

/-- SetTimeSetpoint sets the time setpoint value for the DCMotor; no value
validation, the truncated millisecond count is always written. -/
def DCMotor.SetTimeSetpoint (m : DCMotor) (sp : Int) (w : World) :
    DCMotor × World :=
  match m.err with
  | some _ => (m, w)
  | none =>
    let r := setAttributeOf m timeSetpoint (intRepr (Int.tdiv sp 1000000)) w
    ({ m with err := r.1 }, r.2)

/-! ### Discovery -/

/-- One device directory as the enumerator yields it: its id and the raw text
of its port and driver attributes. -/
structure Candidate where
  id : Int
  port : String
  driver : String
  deriving DecidableEq, Repr

/-- Modelled from the spec: the Device Identity Resolver contract (§4.1),
`resolve(port, driver, kind) -> (id, error)`; the repository's `deviceIDFor`
is not under src/.  Empty port: first candidate whose driver matches, else
NotFound.  Non-empty port: the candidate at that port — NotFound with the
sentinel id `-1` when absent, its id plus a DriverMismatch error when its
driver differs, its id with no error when it matches. -/
def deviceIDFor (port driver : String) (cands : List Candidate) :
    Int × Option DevError :=
  if port = "" then
    match cands.find? (fun c => c.driver == driver) with
    | some c => (c.id, none)
    | none => (-1, some .notFound)
  else
    match cands.find? (fun c => c.port == port) with
    | none => (-1, some .notFound)
    | some c =>
      if c.driver = driver then (c.id, none)
      else (c.id, some (.driverMismatch driver c.driver))

/-- DCMotorFor returns a DCMotor for the given ev3 port name and driver. -/
def DCMotorFor (port driver : String) (cands : List Candidate) :
    Option DCMotor × Option DevError :=
  let r := deviceIDFor port driver cands
  if r.1 = -1 then (none, r.2)
  else (some { id := r.1, err := none }, r.2)

deriving instance DecidableEq for Except

/-! ### Decimal roundtrip lemmas -/

theorem charDigit?_digitChar : ∀ d, d < 10 → charDigit? (Nat.digitChar d) = some d := by
  decide

theorem digitChar_ne_dash : ∀ d, d < 10 → Nat.digitChar d ≠ '-' := by
  decide

theorem parseNatAux_append (l₁ l₂ : List Char) (acc : Nat) :
    parseNatAux (l₁ ++ l₂) acc = (parseNatAux l₁ acc).bind (fun a => parseNatAux l₂ a) := by
  induction l₁ generalizing acc with
  | nil => simp [parseNatAux]
  | cons c cs ih =>
    simp only [List.cons_append, parseNatAux]
    cases charDigit? c with
    | none => rfl
    | some d => exact ih _

theorem natDigitsAux_parse :
    ∀ fuel n, n < fuel →
      ∃ w, 0 < w ∧ ∀ acc, parseNatAux (natDigitsAux n fuel) acc = some (acc * w + n) := by
  intro fuel
  induction fuel with
  | zero => intro n h; omega
  | succ k ih =>
    intro n h
    by_cases h10 : n < 10
    · refine ⟨10, by omega, fun acc => ?_⟩
      simp [natDigitsAux, if_pos h10, parseNatAux, charDigit?_digitChar n h10]
    · have hdiv : n / 10 < n := Nat.div_lt_self (by omega) (by omega)
      obtain ⟨w, hw, hp⟩ := ih (n / 10) (by omega)
      have hmod : n % 10 < 10 := Nat.mod_lt _ (by omega)
      refine ⟨w * 10, by positivity, fun acc => ?_⟩
      have hdm := Nat.div_add_mod n 10
      simp only [natDigitsAux, if_neg h10, parseNatAux_append, hp acc, Option.some_bind,
        parseNatAux, charDigit?_digitChar _ hmod]
      congr 1
      ring_nf
      omega

theorem natDigitsAux_ne_nil (n k : Nat) : natDigitsAux n (k + 1) ≠ [] := by
  simp only [natDigitsAux]
  split <;> simp

theorem natDigits_ne_nil (n : Nat) : natDigits n ≠ [] :=
  natDigitsAux_ne_nil n n

theorem natDigitsAux_head :
    ∀ fuel n, n < fuel → ∃ d ds, natDigitsAux n fuel = Nat.digitChar d :: ds ∧ d < 10 := by
  intro fuel
  induction fuel with
  | zero => intro n h; omega
  | succ k ih =>
    intro n h
    by_cases h10 : n < 10
    · exact ⟨n, [], by simp [natDigitsAux, if_pos h10], h10⟩
    · have hdiv : n / 10 < n := Nat.div_lt_self (by omega) (by omega)
      obtain ⟨d, ds, hds, hd⟩ := ih (n / 10) (by omega)
      exact ⟨d, ds ++ [Nat.digitChar (n % 10)], by simp [natDigitsAux, if_neg h10, hds], hd⟩

theorem natDigits_head (n : Nat) :
    ∃ d ds, natDigits n = Nat.digitChar d :: ds ∧ d < 10 :=
  natDigitsAux_head (n + 1) n (by omega)

theorem parseNat_natDigits (n : Nat) : parseNat (natDigits n) = some n := by
  obtain ⟨w, hw, hp⟩ := natDigitsAux_parse (n + 1) n (by omega)
  unfold parseNat natDigits
  rw [if_neg (natDigitsAux_ne_nil n n), hp 0]
  norm_num

/-- Parsing the printed decimal form of an integer recovers the integer. -/
theorem parseInt_intRepr (i : Int) : parseInt (intRepr i) = some i := by
  cases i with
  | ofNat n =>
    obtain ⟨d, ds, hds, hd⟩ := natDigits_head n
    have hnat := parseNat_natDigits n
    have hstep : parseIntChars (natDigits n) = (parseNat (natDigits n)).map (fun k => (k : Int)) := by
      rw [hds]
      simp only [parseIntChars, if_neg (digitChar_ne_dash d hd)]
    show parseIntChars (natDigits n) = some (Int.ofNat n)
    rw [hstep, hnat]
    rfl
  | negSucc n =>
    have hnat := parseNat_natDigits (n + 1)
    show parseIntChars ('-' :: natDigits (n + 1)) = some (Int.negSucc n)
    simp only [parseIntChars, if_pos rfl, hnat, Option.map_some']
    congr 1

/-! ### State-parse lemmas -/

theorem parseStateAux_all_known (l : List String) (data : String) (stat : Nat)
    (h : ∀ t ∈ l, (motorStateTable t).isSome) :
    parseStateAux l data stat =
      .ok (l.foldl (fun acc t => acc ||| (motorStateTable t).getD 0) stat) := by
  induction l generalizing stat with
  | nil => simp [parseStateAux]
  | cons s rest ih =>
    have hs := h s (by simp)
    obtain ⟨bit, hbit⟩ := Option.isSome_iff_exists.mp hs
    simp only [parseStateAux, hbit, List.foldl_cons]
    rw [ih _ (fun t ht => h t (by simp [ht]))]
    simp [hbit]

theorem parseStateAux_first_unknown (l : List String) (data : String) (stat : Nat) (t : String)
    (h : l.find? (fun t => (motorStateTable t).isNone) = some t) :
    parseStateAux l data stat = .error (.unrecognizedState t data) := by
  induction l generalizing stat with
  | nil => simp [List.find?] at h
  | cons s rest ih =>
    cases hmt : motorStateTable s with
    | none =>
      rw [List.find?_cons_of_pos _ (by simp [hmt])] at h
      obtain rfl : s = t := by simpa using h
      simp [parseStateAux, hmt]
    | some bit =>
      rw [List.find?_cons_of_neg _ (by simp [hmt])] at h
      simp only [parseStateAux, hmt]
      exact ih _ h

/-! ### Concrete worlds used to instantiate the theorems -/

/-- A store with empty attributes and no I/O failures. -/
def trivialWorld : World :=
  { attrs := fun _ _ => "", readErr := fun _ _ => none, writeErr := fun _ _ => none }

/-- A store whose every attribute reads "running ramping". -/
def runWorld : World :=
  { attrs := fun _ _ => "running ramping", readErr := fun _ _ => none, writeErr := fun _ _ => none }

/-- A store whose every attribute reads "running flurb". -/
def flurbWorld : World :=
  { attrs := fun _ _ => "running flurb", readErr := fun _ _ => none, writeErr := fun _ _ => none }

/-- A store whose commands allow-list reads "run-forever stop". -/
def cmdWorld : World :=
  { attrs := fun _ a => if a = commands then "run-forever stop" else "",
    readErr := fun _ _ => none, writeErr := fun _ _ => none }

/-! ### Claim theorems -/

/-- C1: for every setter on the DCMotor handle (Command, SetDutyCycleSetpoint,
SetPolarity, SetRampUpSetpoint, SetRampDownSetpoint, SetStopAction,
SetTimeSetpoint) and every handle whose deferred error slot is non-nil, the
call returns the very same handle and leaves the world untouched — for every
world, so no backing attribute is read or written — and the deferred error
slot still holds the same non-nil error. -/
theorem sticky_error_short_circuit (m : DCMotor) (w : World) (e : DevError)
    (h : m.err = some e) (comm p action : String) (sp d t : Int) :
    m.Command comm w = (m, w)
    ∧ m.SetDutyCycleSetpoint sp w = (m, w)
    ∧ m.SetPolarity p w = (m, w)
    ∧ m.SetRampUpSetpoint d w = (m, w)
    ∧ m.SetRampDownSetpoint d w = (m, w)
    ∧ m.SetStopAction action w = (m, w)
    ∧ m.SetTimeSetpoint t w = (m, w)
    ∧ (m.Command comm w).1.err = some e := by
  refine ⟨?_, ?_, ?_, ?_, ?_, ?_, ?_, ?_⟩ <;>
    simp [DCMotor.Command, DCMotor.SetDutyCycleSetpoint, DCMotor.SetPolarity,
      DCMotor.SetRampUpSetpoint, DCMotor.SetRampDownSetpoint, DCMotor.SetStopAction,
      DCMotor.SetTimeSetpoint, h]

/-- Witness for C1 at a concrete handle carrying a pending I/O error. -/
theorem sticky_error_short_circuit_witness :
    DCMotor.Command ⟨1, some (.ioError "boom")⟩ "c" trivialWorld
      = (⟨1, some (.ioError "boom")⟩, trivialWorld)
    ∧ DCMotor.SetDutyCycleSetpoint ⟨1, some (.ioError "boom")⟩ 0 trivialWorld
      = (⟨1, some (.ioError "boom")⟩, trivialWorld)
    ∧ DCMotor.SetPolarity ⟨1, some (.ioError "boom")⟩ "x" trivialWorld
      = (⟨1, some (.ioError "boom")⟩, trivialWorld)
    ∧ DCMotor.SetRampUpSetpoint ⟨1, some (.ioError "boom")⟩ 0 trivialWorld
      = (⟨1, some (.ioError "boom")⟩, trivialWorld)
    ∧ DCMotor.SetRampDownSetpoint ⟨1, some (.ioError "boom")⟩ 0 trivialWorld
      = (⟨1, some (.ioError "boom")⟩, trivialWorld)
    ∧ DCMotor.SetStopAction ⟨1, some (.ioError "boom")⟩ "a" trivialWorld
      = (⟨1, some (.ioError "boom")⟩, trivialWorld)
    ∧ DCMotor.SetTimeSetpoint ⟨1, some (.ioError "boom")⟩ 0 trivialWorld
      = (⟨1, some (.ioError "boom")⟩, trivialWorld)
    ∧ (DCMotor.Command ⟨1, some (.ioError "boom")⟩ "c" trivialWorld).1.err
      = some (.ioError "boom") :=
  sticky_error_short_circuit ⟨1, some (.ioError "boom")⟩ trivialWorld
    (.ioError "boom") rfl "c" "x" "a" 0 0 0

/-- C7: Err returns the currently stored deferred error and clears the slot,
so an immediately following Err call returns nil. -/
theorem Err_drains (m : DCMotor) :
    (DCMotor.Err m).1 = m.err
    ∧ (DCMotor.Err m).2 = { m with err := none }
    ∧ (DCMotor.Err (DCMotor.Err m).2).1 = none := by
  refine ⟨rfl, rfl, rfl⟩

/-- C9: setID resets the entire handle: afterwards the id field equals the
given id and the deferred error slot is nil, discarding any pending sticky
error. -/
theorem setID_resets (m : DCMotor) (i : Int) :
    DCMotor.setID m i = { id := i, err := none }
    ∧ (DCMotor.setID m i).id = i
    ∧ (DCMotor.setID m i).err = none := by
  refine ⟨rfl, rfl, rfl⟩

/-- C3: with a nil deferred error, SetDutyCycleSetpoint accepts exactly
[-100, 100]: an in-range setpoint is written to the backing attribute as its
decimal text (and a failing backing write stores that I/O error), while an
out-of-range setpoint stores a validation error and leaves the store
untouched. -/
theorem SetDutyCycleSetpoint_range (m : DCMotor) (w : World) (sp : Int)
    (h : m.err = none) :
    (-100 ≤ sp → sp ≤ 100 →
       (w.writeErr m.id dutyCycleSetpoint = none →
          (m.SetDutyCycleSetpoint sp w).2.attrs m.id dutyCycleSetpoint = intRepr sp
          ∧ (m.SetDutyCycleSetpoint sp w).1.err = none)
       ∧ (∀ msg, w.writeErr m.id dutyCycleSetpoint = some msg →
            m.SetDutyCycleSetpoint sp w = ({ m with err := some (.ioError msg) }, w)))
    ∧ ((sp < -100 ∨ 100 < sp) →
       m.SetDutyCycleSetpoint sp w = ({ m with err := some (.invalidDutyCycle sp) }, w)) := by
  constructor
  · intro h1 h2
    have hcond : ¬(sp < -100 ∨ sp > 100) := by omega
    constructor
    · intro hw
      simp [DCMotor.SetDutyCycleSetpoint, h, hcond, setAttributeOf, hw]
    · intro msg hw
      simp [DCMotor.SetDutyCycleSetpoint, h, hcond, setAttributeOf, hw]
  · intro hout
    have hcond : sp < -100 ∨ sp > 100 := by omega
    simp [DCMotor.SetDutyCycleSetpoint, h, hcond]

/-- Witness for C3: 50 is written as "50"; -101 and 101 are rejected with the
validation error, leaving the store untouched. -/
theorem SetDutyCycleSetpoint_range_witness :
    (DCMotor.SetDutyCycleSetpoint ⟨2, none⟩ 50 trivialWorld).2.attrs 2 dutyCycleSetpoint = "50"
    ∧ DCMotor.SetDutyCycleSetpoint ⟨2, none⟩ (-101) trivialWorld
      = (⟨2, some (.invalidDutyCycle (-101))⟩, trivialWorld)
    ∧ DCMotor.SetDutyCycleSetpoint ⟨2, none⟩ 101 trivialWorld
      = (⟨2, some (.invalidDutyCycle 101)⟩, trivialWorld) := by
  refine ⟨?_, ?_, ?_⟩
  · exact (((SetDutyCycleSetpoint_range ⟨2, none⟩ trivialWorld 50 rfl).1
      (by norm_num) (by norm_num)).1 rfl).1.trans (by decide)
  · exact (SetDutyCycleSetpoint_range ⟨2, none⟩ trivialWorld (-101) rfl).2 (by norm_num)
  · exact (SetDutyCycleSetpoint_range ⟨2, none⟩ trivialWorld 101 rfl).2 (by norm_num)

/-- C2: evaluation of the ramp setters at the failing input.  The guard
`sp < 0 || sp > 10000` compares the `time.Duration` (a nanosecond count)
against the bare literal 10000, so a 1 ms setpoint — inside the documented
[0 ms, 10000 ms] interval — is rejected with a validation error and the store
is never written; the only accepted setpoints are at most 10 µs, all of which
write the text "0". -/
theorem rampSetpoint_nanosecond_guard :
    DCMotor.SetRampUpSetpoint ⟨0, none⟩ 1000000 trivialWorld
      = (⟨0, some (.invalidRampUp 1000000)⟩, trivialWorld)
    ∧ DCMotor.SetRampDownSetpoint ⟨0, none⟩ 1000000 trivialWorld
      = (⟨0, some (.invalidRampDown 1000000)⟩, trivialWorld)
    ∧ (DCMotor.SetRampUpSetpoint ⟨0, none⟩ 10000 trivialWorld).2.attrs 0 rampUpSetpoint = "0"
    ∧ (DCMotor.SetRampUpSetpoint ⟨0, none⟩ (10000 * 1000000) trivialWorld).1.err
      = some (.invalidRampUp (10000 * 1000000)) :=
  ⟨rfl, rfl, by decide, by decide⟩

/-- C4: State checks the deferred slot first and, if set, returns that error
and clears the slot without consulting the world; otherwise it splits the raw
state text on single spaces and folds the table bit of each token into a
bitmask with bitwise or, failing with a parse error naming the first token
that is not in the token table. -/
theorem State_spec (m : DCMotor) (w : World) :
    (∀ e, m.err = some e →
        ∀ w', m.State w' = (.error e, { m with err := none }))
    ∧ (m.err = none → w.readErr m.id state = none →
        ((∀ t ∈ splitSpace (w.attrs m.id state), (motorStateTable t).isSome) →
            (m.State w).1 =
              .ok ((splitSpace (w.attrs m.id state)).foldl
                    (fun acc t => acc ||| (motorStateTable t).getD 0) 0))
        ∧ (∀ t, (splitSpace (w.attrs m.id state)).find?
                  (fun t => (motorStateTable t).isNone) = some t →
            (m.State w).1 = .error (.unrecognizedState t (w.attrs m.id state)))) := by
  constructor
  · intro e he w'
    simp [DCMotor.State, he]
  · intro he hr
    constructor
    · intro hall
      simp only [DCMotor.State, he, attributeOf, hr]
      exact parseStateAux_all_known _ _ _ hall
    · intro t ht
      simp only [DCMotor.State, he, attributeOf, hr]
      exact parseStateAux_first_unknown _ _ _ _ ht

/-- Witness for C4: a pending error is returned and drained; raw text
"running ramping" parses to bitmask 3 under the table {running:1, ramping:2,
stalled:4}; raw text "running flurb" fails naming "flurb". -/
theorem State_spec_witness :
    DCMotor.State ⟨3, some (.ioError "x")⟩ trivialWorld = (.error (.ioError "x"), ⟨3, none⟩)
    ∧ (DCMotor.State ⟨3, none⟩ runWorld).1 = .ok 3
    ∧ (DCMotor.State ⟨3, none⟩ flurbWorld).1
      = .error (.unrecognizedState "flurb" "running flurb") := by
  refine ⟨?_, ?_, ?_⟩
  · exact (State_spec ⟨3, some (.ioError "x")⟩ trivialWorld).1 _ rfl trivialWorld
  · exact (((State_spec ⟨3, none⟩ runWorld).2 rfl rfl).1 (by decide)).trans (by decide)
  · exact ((State_spec ⟨3, none⟩ flurbWorld).2 rfl rfl).2 "flurb" (by decide)

/-- C5: with a nil deferred error, Command first reads the commands
allow-list: a failing read stores that I/O error; a command outside the
allow-list stores the not-available error carrying the command, the device's
string form and the full allow-list, and the command attribute is never
written; a command in the allow-list is written to the command attribute with
the write's outcome (nil on success) stored.  The same handle (same id) is
returned in every case, and the not-available error's text names all three
pieces. -/
theorem Command_spec (m : DCMotor) (w : World) (comm : String) (h : m.err = none) :
    (∀ msg, w.readErr m.id commands = some msg →
        m.Command comm w = ({ m with err := some (.ioError msg) }, w))
    ∧ (w.readErr m.id commands = none →
        (comm ∉ splitSpace (w.attrs m.id commands) →
            m.Command comm w =
              ({ m with err := some (.notAvailable comm m.toDisplay
                                      (splitSpace (w.attrs m.id commands))) }, w))
        ∧ (comm ∈ splitSpace (w.attrs m.id commands) →
            m.Command comm w =
              ({ m with err := (setAttributeOf m command comm w).1 },
               (setAttributeOf m command comm w).2)))
    ∧ (m.Command comm w).1.id = m.id
    ∧ errorText (.notAvailable comm m.toDisplay (splitSpace (w.attrs m.id commands)))
        = "ev3dev: command " ++ goQuote comm ++ " not available for " ++ m.toDisplay
          ++ " (available:" ++ goQuoteList (splitSpace (w.attrs m.id commands)) ++ ")" := by
  refine ⟨?_, ?_, ?_, rfl⟩
  · intro msg hw
    simp [DCMotor.Command, h, DCMotor.Commands, stringSliceFrom, attributeOf, hw, Except.map]
  · intro hr
    constructor
    · intro hmem
      simp [DCMotor.Command, h, DCMotor.Commands, stringSliceFrom, attributeOf, hr,
        Except.map, hmem]
    · intro hmem
      simp [DCMotor.Command, h, DCMotor.Commands, stringSliceFrom, attributeOf, hr,
        Except.map, hmem]
  · simp only [DCMotor.Command, h]
    cases hc : m.Commands w with
    | error e => rfl
    | ok avail =>
      by_cases hmem : comm ∈ avail <;> simp [hmem]

/-- Witness for C5: against allow-list "run-forever stop", the command
"bogus" stores the not-available error naming the command, "motor4" and both
allowed entries, without writing; "stop" is accepted and written with no
error stored. -/
theorem Command_spec_witness :
    (DCMotor.Command ⟨4, none⟩ "bogus" cmdWorld).1.err
      = some (.notAvailable "bogus" "motor4" ["run-forever", "stop"])
    ∧ (DCMotor.Command ⟨4, none⟩ "bogus" cmdWorld).2.attrs 4 command = ""
    ∧ (DCMotor.Command ⟨4, none⟩ "stop" cmdWorld).1.err = none
    ∧ errorText (.notAvailable "bogus" "motor4" ["run-forever", "stop"])
      = "ev3dev: command \"bogus\" not available for motor4 (available:[\"run-forever\" \"stop\"])" := by
  have h1 := ((Command_spec ⟨4, none⟩ cmdWorld "bogus" rfl).2.1 rfl).1 (by decide)
  have h2 := ((Command_spec ⟨4, none⟩ cmdWorld "stop" rfl).2.1 rfl).2 (by decide)
  refine ⟨?_, ?_, ?_, by decide⟩
  · rw [h1]; decide
  · rw [h1]; decide
  · rw [h2]; decide

/-- C6: DCMotorFor returns a nil handle exactly when the resolver yields the
sentinel id -1 (passing on the resolver's error); for any other resolved id it
returns a handle bound to that id together with the resolver's error, so a
handle with id -1 is never returned, and in the driver-mismatch case the
caller receives both a usable handle and the non-nil mismatch error. -/
theorem DCMotorFor_spec (port driver : String) (cands : List Candidate) :
    ((DCMotorFor port driver cands).1 = none ↔ (deviceIDFor port driver cands).1 = -1)
    ∧ ((deviceIDFor port driver cands).1 = -1 →
        (DCMotorFor port driver cands).2 = (deviceIDFor port driver cands).2)
    ∧ ((deviceIDFor port driver cands).1 ≠ -1 →
        DCMotorFor port driver cands =
          (some ⟨(deviceIDFor port driver cands).1, none⟩, (deviceIDFor port driver cands).2))
    ∧ (∀ h, (DCMotorFor port driver cands).1 = some h → h.id ≠ -1)
    ∧ (port ≠ "" → ∀ c, cands.find? (fun x => x.port == port) = some c →
        c.driver ≠ driver → c.id ≠ -1 →
        DCMotorFor port driver cands =
          (some ⟨c.id, none⟩, some (.driverMismatch driver c.driver))) := by
  refine ⟨?_, ?_, ?_, ?_, ?_⟩
  · by_cases hid : (deviceIDFor port driver cands).1 = -1 <;> simp [DCMotorFor, hid]
  · intro hid
    simp [DCMotorFor, hid]
  · intro hid
    simp [DCMotorFor, hid]
  · intro hh hsome
    by_cases hid : (deviceIDFor port driver cands).1 = -1
    · simp [DCMotorFor, hid] at hsome
    · simp [DCMotorFor, hid] at hsome
      rw [← hsome]
      exact hid
  · intro hport c hfind hdrv hcid
    have hdev : deviceIDFor port driver cands = (c.id, some (.driverMismatch driver c.driver)) := by
      simp [deviceIDFor, hport, hfind, hdrv]
    simp [DCMotorFor, hdev, hcid]

/-- Witness for C6: a candidate with id 5 at port "outA" driven by "foo",
discovered with driver "bar", yields a non-nil handle bound to id 5 together
with the driver-mismatch error; with no candidate at the port, discovery
yields a nil handle and the NotFound error. -/
theorem DCMotorFor_spec_witness :
    DCMotorFor "outA" "bar" [⟨5, "outA", "foo"⟩]
      = (some ⟨5, none⟩, some (.driverMismatch "bar" "foo"))
    ∧ (DCMotorFor "outA" "bar" []).1 = none
    ∧ (DCMotorFor "outA" "bar" []).2 = some .notFound := by
  refine ⟨?_, ?_, ?_⟩
  · exact (DCMotorFor_spec "outA" "bar" [⟨5, "outA", "foo"⟩]).2.2.2.2
      (by decide) ⟨5, "outA", "foo"⟩ (by decide) (by decide) (by decide)
  · exact ((DCMotorFor_spec "outA" "bar" []).1).mpr (by decide)
  · exact ((DCMotorFor_spec "outA" "bar" []).2.1 (by decide)).trans (by decide)

/-- C8: with a nil deferred error and a successful write, SetTimeSetpoint
stores the decimal text of the setpoint truncated toward zero to whole
milliseconds, and reading the attribute back via TimeSetpoint yields exactly
that whole number of milliseconds (as a nanosecond-valued duration). -/
theorem SetTimeSetpoint_roundtrip (m : DCMotor) (w : World) (sp : Int)
    (h : m.err = none) (hw : w.writeErr m.id timeSetpoint = none)
    (hr : w.readErr m.id timeSetpoint = none) :
    (m.SetTimeSetpoint sp w).2.attrs m.id timeSetpoint = intRepr (Int.tdiv sp 1000000)
    ∧ (m.SetTimeSetpoint sp w).1.err = none
    ∧ DCMotor.TimeSetpoint m (m.SetTimeSetpoint sp w).2
      = .ok (Int.tdiv sp 1000000 * 1000000) := by
  refine ⟨?_, ?_, ?_⟩
  · simp [DCMotor.SetTimeSetpoint, h, setAttributeOf, hw]
  · simp [DCMotor.SetTimeSetpoint, h, setAttributeOf, hw]
  · simp only [DCMotor.SetTimeSetpoint, h, setAttributeOf, hw]
    simp only [DCMotor.TimeSetpoint, attributeOf, hr, durationFrom]
    simp [parseInt_intRepr]

/-- Witness for C8: a 1500.7 ms setpoint (1500700000 ns) stores the literal
"1500" and reads back as exactly 1500 ms (1500000000 ns). -/
theorem SetTimeSetpoint_roundtrip_witness :
    (DCMotor.SetTimeSetpoint ⟨7, none⟩ 1500700000 trivialWorld).2.attrs 7 timeSetpoint = "1500"
    ∧ DCMotor.TimeSetpoint ⟨7, none⟩ (DCMotor.SetTimeSetpoint ⟨7, none⟩ 1500700000 trivialWorld).2
      = .ok 1500000000 := by
  obtain ⟨h1, _, h3⟩ := SetTimeSetpoint_roundtrip ⟨7, none⟩ trivialWorld 1500700000 rfl rfl rfl
  exact ⟨h1.trans (by decide), h3.trans (by decide)⟩

/-- C10: with a nil deferred error, SetTimeSetpoint applies no value
validation: for every duration, negative ones included, it performs the
backing write of the truncated millisecond count, the stored error is exactly
the write outcome (so nil, or an I/O error — never a validation error), and
on a successful write the attribute holds the truncated count. -/
theorem SetTimeSetpoint_no_validation (m : DCMotor) (w : World) (sp : Int)
    (h : m.err = none) :
    m.SetTimeSetpoint sp w =
      ({ m with err := (setAttributeOf m timeSetpoint (intRepr (Int.tdiv sp 1000000)) w).1 },
       (setAttributeOf m timeSetpoint (intRepr (Int.tdiv sp 1000000)) w).2)
    ∧ ((m.SetTimeSetpoint sp w).1.err = none
        ∨ ∃ msg, (m.SetTimeSetpoint sp w).1.err = some (.ioError msg))
    ∧ (w.writeErr m.id timeSetpoint = none →
        (m.SetTimeSetpoint sp w).2.attrs m.id timeSetpoint = intRepr (Int.tdiv sp 1000000)
        ∧ (m.SetTimeSetpoint sp w).1.err = none) := by
  refine ⟨?_, ?_, ?_⟩
  · simp [DCMotor.SetTimeSetpoint, h]
  · cases hw : w.writeErr m.id timeSetpoint with
    | none => exact Or.inl (by simp [DCMotor.SetTimeSetpoint, h, setAttributeOf, hw])
    | some msg => exact Or.inr ⟨msg, by simp [DCMotor.SetTimeSetpoint, h, setAttributeOf, hw]⟩
  · intro hw
    constructor
    · simp [DCMotor.SetTimeSetpoint, h, setAttributeOf, hw]
    · simp [DCMotor.SetTimeSetpoint, h, setAttributeOf, hw]

/-- Witness for C10: the negative setpoint -5.5 ms (-5500000 ns) is not
rejected — the truncated count "-5" is written and no error is stored. -/
theorem SetTimeSetpoint_no_validation_witness :
    (DCMotor.SetTimeSetpoint ⟨8, none⟩ (-5500000) trivialWorld).2.attrs 8 timeSetpoint = "-5"
    ∧ (DCMotor.SetTimeSetpoint ⟨8, none⟩ (-5500000) trivialWorld).1.err = none := by
  obtain ⟨h1, h2⟩ :=
    (SetTimeSetpoint_no_validation ⟨8, none⟩ trivialWorld (-5500000) rfl).2.2 rfl
  exact ⟨h1.trans (by decide), h2⟩

end Ev3dev
